import Mathlib

/-!  Verification development for the PrimeWorldEditor serialization archive
     (Common/Serialization/IArchive.h) and resource store
     (Core/GameProject/CResourceStore.cpp).

     The definitions below are a shallow embedding of the C++ source: each
     definition mirrors one function of the source, with external
     collaborators (format backends, file system, factories) supplied as
     explicit parameters.  Machine integers are modelled as Nat; bit flags
     use Nat bitwise operations.  -/

namespace PWE

/-! ### ESerialHint and EArchiveFlags (IArchive.h lines 57-76) -/

def SH_HexDisplay : Nat := 0x1
def SH_Optional : Nat := 0x2
def SH_NeverSave : Nat := 0x4
def SH_AlwaysSave : Nat := 0x8
def SH_Attribute : Nat := 0x10
def SH_IgnoreName : Nat := 0x20

def AF_Reader : Nat := 0x1
def AF_Writer : Nat := 0x2
def AF_Text : Nat := 0x4
def AF_Binary : Nat := 0x8
def AF_NoSkipping : Nat := 0x10

/-- EArchiveVersion: eArVer_Initial. -/
def eArVer_Initial : Nat := 0
/-- EArchiveVersion: eArVer_32BitBinarySize. -/
def eArVer_32BitBinarySize : Nat := 1
/-- EArchiveVersion: eArVer_Refactor. -/
def eArVer_Refactor : Nat := 2
/-- skCurrentArchiveVersion = eArVer_Max - 1. -/
def skCurrentArchiveVersion : Nat := 2

/-- Test a bit flag: (flags & bit) != 0. -/
def hasFlag (flags bit : Nat) : Bool := decide (flags &&& bit ≠ 0)

/-! ### Archive state (the fields of IArchive relevant to dispatch) -/

structure ArchiveState where
  mArchiveVersion : Nat
  mArchiveFlags : Nat
deriving DecidableEq

def IsReader (a : ArchiveState) : Bool := hasFlag a.mArchiveFlags AF_Reader
def IsWriter (a : ArchiveState) : Bool := hasFlag a.mArchiveFlags AF_Writer

/-! ### TSerialParameter (IArchive.h lines 98-156) -/

structure TSerialParameter (α : Type) where
  pkName : String
  rValue : α
  HintFlags : Nat
  pDefaultValue : Option α
deriving DecidableEq

/-- ParameterMatchesDefault (IArchive.h lines 122-135): true when a default
    is supplied and the live value equals it. -/
def ParameterMatchesDefault {α : Type} [DecidableEq α]
    (p : TSerialParameter α) : Bool :=
  match p.pDefaultValue with
  | some d => decide (p.rValue = d)
  | none => false

/-- InitParameterToDefault (IArchive.h lines 137-156): the value the field
    holds after the reset (unchanged when no default is supplied). -/
def InitParameterToDefault {α : Type} (p : TSerialParameter α) : α :=
  match p.pDefaultValue with
  | some d => d
  | none => p.rValue

/-- IArchive::ShouldSerializeParameter (IArchive.h lines 279-297). -/
def ShouldSerializeParameter {α : Type} [DecidableEq α]
    (a : ArchiveState) (p : TSerialParameter α) : Bool :=
  if hasFlag a.mArchiveFlags AF_NoSkipping then true
  else if IsWriter a then
    if hasFlag p.HintFlags SH_NeverSave then false
    else if hasFlag p.HintFlags SH_Optional &&
            !(hasFlag p.HintFlags SH_AlwaysSave) &&
            ParameterMatchesDefault p then false
    else true
  else true

/-! ### The primitive value operator<< (IArchive.h lines 354-371)

     The format backend is abstracted by the result of its ParamBegin call
     and by the value its SerializePrimitive produces in reader mode.  -/

structure PrimBackend (α : Type) where
  paramBeginResult : Bool
  readValue : α
deriving DecidableEq

/-- IArchive::operator<< for Primitive values (IArchive.h lines 354-371).
    Returns the value held by the field afterwards, and whether a named
    entry was emitted/entered (ParamBegin reached and confirmed). -/
def serializePrimitiveValue {α : Type} [DecidableEq α]
    (a : ArchiveState) (be : PrimBackend α) (p : TSerialParameter α) :
    α × Bool :=
  if ShouldSerializeParameter a p && be.paramBeginResult then
    (if IsReader a then be.readValue else p.rValue, true)
  else if IsReader a then
    (InitParameterToDefault p, false)
  else
    (p.rValue, false)

/-! ### The parameter stack and FindParentObject (IArchive.h lines 237-244, 650-664) -/

structure SParmStackEntry where
  TypeID : Nat
  TypeSize : Nat
  pDataPointer : Nat
  HintFlags : Nat
deriving DecidableEq

/-- The loop of IArchive::FindParentObject: argument n+1 means the index n is
    examined next, counting down to index 0. -/
def FindParentLoop (stack : List SParmStackEntry) (tid : Nat) :
    Nat → Option Nat
  | 0 => none
  | n + 1 =>
    match stack[n]? with
    | some e =>
      if e.TypeID = tid then some e.pDataPointer
      else FindParentLoop stack tid n
    | none => FindParentLoop stack tid n

/-- IArchive::FindParentObject (IArchive.h lines 650-664): scan from index
    size-2 down to 0, returning the data pointer of the first frame whose
    type identity matches. -/
def FindParentObject (stack : List SParmStackEntry) (tid : Nat) : Option Nat :=
  FindParentLoop stack tid (stack.length - 1)

/-! ### The pointer operator<< overloads (IArchive.h lines 373-406, 428-461,
     483-515, 517-572)

     The functions below return `none` when a fatal ASSERT fires (or, for the
     abstract overload in writer mode, when a null pointee is dereferenced),
     and otherwise `some` of the pointer value after the call together with
     the trace of backend interactions.  -/

inductive ArcEvent where
  | paramBegin (name : String)
  | paramEnd
  | typeTag (v : Nat)
  | instantiate (t : Nat)
  | pointeeBody
  | objBody (objId : Nat)
deriving DecidableEq

/-- Backend responses consumed by a pointer-field serialization. -/
structure PtrBackend where
  paramBeginResult : Bool
  preSerializeResult : Bool
  typeTagValue : Nat
deriving DecidableEq

/-- Whether a trace contains a serialization of a "Type" tag. -/
def hasTypeTag (tr : List ArcEvent) : Bool :=
  tr.any (fun e => match e with | ArcEvent.typeTag _ => true | _ => false)

/-- Trace component of a pointer-serialization result (empty on assert). -/
def tracedEvents {β : Type} (r : Option (β × List ArcEvent)) : List ArcEvent :=
  match r with
  | some x => x.2
  | none => []

/-- The legacy compatibility shim shared by the three non-abstract pointer
    overloads: under eArVer_Refactor, a reader consumes a redundant "Type"
    tag for polymorphic pointees into a throwaway local. -/
def legacyTypeTagEvents (a : ArchiveState) (poly : Bool) (be : PtrBackend) :
    List ArcEvent :=
  if decide (a.mArchiveVersion < eArVer_Refactor) && IsReader a && poly then
    [ArcEvent.typeTag be.typeTagValue]
  else []

/-- IArchive::operator<< for Primitive pointers (IArchive.h lines 373-406).
    `poly` models std::is_polymorphic_v of the pointee type; `newId` is the
    object produced by `new ValType`.  The leading ASSERT rejects a null
    pointer on a writer archive. -/
def serializePrimitivePtr (a : ArchiveState) (poly : Bool) (newId : Nat)
    (be : PtrBackend) (p : TSerialParameter (Option Nat)) :
    Option (Option Nat × List ArcEvent) :=
  if hasFlag a.mArchiveFlags AF_Writer && p.rValue.isNone then none
  else if ShouldSerializeParameter a p && be.paramBeginResult then
    let legacy := legacyTypeTagEvents a poly be
    if be.preSerializeResult then
      let v1 : Option Nat :=
        if p.rValue.isNone && hasFlag a.mArchiveFlags AF_Reader then some newId
        else p.rValue
      let bodyEvs : List ArcEvent :=
        if v1.isSome then [ArcEvent.pointeeBody] else []
      some (v1, ArcEvent.paramBegin p.pkName :: legacy ++ bodyEvs ++
                [ArcEvent.paramEnd])
    else
      some (if IsReader a then none else p.rValue,
            ArcEvent.paramBegin p.pkName :: legacy ++ [ArcEvent.paramEnd])
  else
    some (p.rValue, [])

/-- IArchive::operator<< for Global-serialized pointers (IArchive.h lines
    428-461).  Identical control flow to the Primitive pointer overload; the
    ASSERT is phrased through IsWriter(). -/
def serializeGlobalPtr (a : ArchiveState) (poly : Bool) (newId : Nat)
    (be : PtrBackend) (p : TSerialParameter (Option Nat)) :
    Option (Option Nat × List ArcEvent) :=
  if IsWriter a && p.rValue.isNone then none
  else if ShouldSerializeParameter a p && be.paramBeginResult then
    let legacy := legacyTypeTagEvents a poly be
    if be.preSerializeResult then
      let v1 : Option Nat :=
        if p.rValue.isNone && IsReader a then some newId else p.rValue
      let bodyEvs : List ArcEvent :=
        if v1.isSome then [ArcEvent.pointeeBody] else []
      some (v1, ArcEvent.paramBegin p.pkName :: legacy ++ bodyEvs ++
                [ArcEvent.paramEnd])
    else
      some (if IsReader a then none else p.rValue,
            ArcEvent.paramBegin p.pkName :: legacy ++ [ArcEvent.paramEnd])
  else
    some (p.rValue, [])

/-- IArchive::operator<< for non-abstract Member-serialized pointers
    (IArchive.h lines 483-515).  Note: this overload performs no null
    check before serializing on a writer. -/
def serializeMemberPtr (a : ArchiveState) (poly : Bool) (newId : Nat)
    (be : PtrBackend) (p : TSerialParameter (Option Nat)) :
    Option (Option Nat × List ArcEvent) :=
  if ShouldSerializeParameter a p && be.paramBeginResult then
    let legacy := legacyTypeTagEvents a poly be
    if be.preSerializeResult then
      let v1 : Option Nat :=
        if p.rValue.isNone && IsReader a then some newId else p.rValue
      let bodyEvs : List ArcEvent :=
        if v1.isSome then [ArcEvent.pointeeBody] else []
      some (v1, ArcEvent.paramBegin p.pkName :: legacy ++ bodyEvs ++
                [ArcEvent.paramEnd])
    else
      some (if IsReader a then none else p.rValue,
            ArcEvent.paramBegin p.pkName :: legacy ++ [ArcEvent.paramEnd])
  else
    some (p.rValue, [])

/-! ### The abstract Member pointer overload (IArchive.h lines 517-572) -/

/-- A polymorphic object: its identity and result of its virtual Type(). -/
structure AbsObj where
  objId : Nat
  typeVal : Nat
deriving DecidableEq

/-- Backend responses for the abstract pointer overload.  `typeReadValue` is
    the value the local "Type" variable holds after the nested reader-side
    serialization of the Type attribute. -/
structure AbsBackend where
  paramBeginResult : Bool
  preSerializeResult : Bool
  typeReadValue : Nat
deriving DecidableEq

/-- IArchive::operator<< for abstract Member pointers (IArchive.h lines
    517-572).  `factory` models InstantiateAbstractObject, i.e. the
    ValType::ArchiveConstructor lookup.  Result `none` models the fatal
    ASSERT(Type == TypeCopy) mismatch (reader) or the fatal null
    dereference of rParam.rValue->Type() (writer). -/
def serializeAbstractMemberPtr (a : ArchiveState) (factory : Nat → AbsObj)
    (be : AbsBackend) (p : TSerialParameter (Option AbsObj)) :
    Option (Option AbsObj × List ArcEvent) :=
  if ShouldSerializeParameter a p && be.paramBeginResult then
    if be.preSerializeResult then
      if IsWriter a then
        match p.rValue with
        | none => none
        | some o =>
          some (some o, [ArcEvent.paramBegin p.pkName,
                         ArcEvent.typeTag o.typeVal,
                         ArcEvent.objBody o.objId, ArcEvent.paramEnd])
      else
        let typeCopy : Nat :=
          match p.rValue with
          | some o => o.typeVal
          | none => 0
        let t : Nat := if IsReader a then be.typeReadValue else typeCopy
        if IsReader a && p.rValue.isNone then
          let o := factory t
          some (some o, [ArcEvent.paramBegin p.pkName, ArcEvent.typeTag t,
                         ArcEvent.instantiate t, ArcEvent.objBody o.objId,
                         ArcEvent.paramEnd])
        else
          match p.rValue with
          | some o =>
            if t = typeCopy then
              some (some o, [ArcEvent.paramBegin p.pkName, ArcEvent.typeTag t,
                             ArcEvent.objBody o.objId, ArcEvent.paramEnd])
            else none
          | none =>
            some (none, [ArcEvent.paramBegin p.pkName, ArcEvent.typeTag t,
                         ArcEvent.paramEnd])
    else
      some (if IsReader a then none else p.rValue,
            [ArcEvent.paramBegin p.pkName, ArcEvent.paramEnd])
  else
    some (p.rValue, [])

/-! ### CResourceStore: entries, registration, loading, saving
     (Core/GameProject/CResourceStore.cpp)  -/

/-- A CResourceEntry as far as the store-level claims observe it
    (CResourceEntry.h): id, type, directory path, name, transient flag. -/
structure SEntry where
  id : Nat
  resType : Nat
  dirPath : String
  name : String
  transient : Bool
deriving DecidableEq

/-- Modelled from the spec: CAssetID::IsValid (CAssetID is not in src); the
    invalid identifier is modelled as 0. -/
def assetIDIsValid (id : Nat) : Bool := decide (id ≠ 0)

/-- Association-list lookup in mResourceEntries by id. -/
def FindEntryIn (entries : List SEntry) (id : Nat) : Option SEntry :=
  entries.find? (fun e => decide (e.id = id))

/-- The store state observed by the registration/load/save claims:
    mResourceEntries, mLoadedResources (as the list of loaded ids),
    mTransientLoadDir and the two dirty flags. -/
structure RStore where
  resourceEntries : List SEntry
  loadedResources : List Nat
  transientLoadDir : String
  databaseDirty : Bool
  cacheFileDirty : Bool
deriving DecidableEq

/-- CResourceStore::FindEntry(CAssetID) (CResourceStore.cpp lines 362-368). -/
def FindEntry (st : RStore) (id : Nat) : Option SEntry :=
  if assetIDIsValid id then FindEntryIn st.resourceEntries id else none

/-- External path validators: CVirtualDirectory::IsValidDirectoryPath and
    FileUtil::IsValidName are not part of src, so they are parameters. -/
structure Validators where
  isValidDirectoryPath : String → Bool
  isValidName : String → Bool

/-- CResourceStore::IsValidResourcePath (CResourceStore.cpp lines 697-705). -/
def IsValidResourcePath (v : Validators) (path name : String) : Bool :=
  v.isValidDirectoryPath path && v.isValidName name &&
  !(name.contains '/') && !(name.contains '\\')

/-- Modelled from the spec: CResourceEntry::AddToProject (CResourceEntry.cpp
    is not in src): promotes a transient entry in place to a permanent entry
    at the given directory and name. -/
def AddToProject (e : SEntry) (dir name : String) : SEntry :=
  { e with transient := false, dirPath := dir, name := name }

/-- CResourceStore::RegisterResource (CResourceStore.cpp lines 380-410).
    Result `none` models the fatal ASSERT(pEntry->ResourceType() == Type)
    firing when a tracked transient entry has a different type; otherwise the
    result carries the new store state and whether an error was logged. -/
def RegisterResource (v : Validators) (st : RStore) (id ty : Nat)
    (dir name : String) : Option (RStore × Bool) :=
  match FindEntry st id with
  | some e =>
    if e.transient then
      if e.resType = ty then
        let promoted :=
          st.resourceEntries.map
            (fun x => if x.id = id then AddToProject x dir name else x)
        some ({ st with resourceEntries := promoted }, false)
      else none
    else
      some (st, true)
  | none =>
    if IsValidResourcePath v dir name then
      let grown := st.resourceEntries ++ [⟨id, ty, dir, name, false⟩]
      some ({ st with resourceEntries := grown }, false)
    else
      some (st, true)

/-- CResourceStore::RegisterTransientResource (3-argument overload,
    CResourceStore.cpp lines 412-417): always creates a fresh entry keyed by
    CAssetID::RandomID(), supplied here as `rid`. -/
def RegisterTransientResourceNew (st : RStore) (ty : Nat) (dir name : String)
    (rid : Nat) : RStore :=
  { st with resourceEntries := st.resourceEntries ++ [⟨rid, ty, dir, name, true⟩] }

/-- CResourceStore::RegisterTransientResource (id overload,
    CResourceStore.cpp lines 419-430): reuses an existing entry for the id,
    else creates a transient one. -/
def RegisterTransientResourceWithID (st : RStore) (ty id : Nat)
    (dir name : String) : RStore :=
  match FindEntry st id with
  | some _ => st
  | none =>
    { st with resourceEntries := st.resourceEntries ++ [⟨id, ty, dir, name, true⟩] }

/-- CResourceStore::DeleteResourceEntry (CResourceStore.cpp lines 590-613),
    restricted to the calls made by LoadResource on a load failure: the
    entry is not loaded there, so the Unload branch is the identity; the
    entry is removed from both maps (erase on mLoadedResources is a no-op
    for an unloaded entry). -/
def DeleteResourceEntryR (st : RStore) (id : Nat) : RStore :=
  { st with
    resourceEntries := st.resourceEntries.filter (fun e => decide (e.id ≠ id)),
    loadedResources := st.loadedResources.erase id }

/-- External collaborators of the two LoadResource overloads:
    CResTypeInfo::TypeForCookedExtension (none models eInvalidResType),
    CAssetID::RandomID, CResourceEntry::LoadCooked success (the entry
    registers itself in mLoadedResources on success, per the spec's
    ResourceEntry lifecycle), file-open success, and the result of
    CResourceEntry::Load for an already registered entry. -/
structure LoadEnv where
  typeForExt : Option Nat
  randomId : Nat
  loadCookedOk : Bool
  fileValid : Bool
  entryLoadResult : Option Nat

/-- CResourceStore::LoadResource(CAssetID, CFourCC) (CResourceStore.cpp
    lines 432-468).  A loaded resource is identified by the id of its
    owning entry. -/
def LoadResourceByID (env : LoadEnv) (st : RStore) (id : Nat) :
    RStore × Option Nat :=
  if !assetIDIsValid id then (st, none)
  else if st.loadedResources.contains id then (st, some id)
  else
    match FindEntry st id with
    | some _ => (st, env.entryLoadResult)
    | none =>
      match env.typeForExt with
      | some ty =>
        let rid := env.randomId
        let st1 := RegisterTransientResourceNew st ty st.transientLoadDir
                     (toString id) rid
        if env.loadCookedOk then
          ({ st1 with loadedResources := st1.loadedResources ++ [rid] }, some rid)
        else
          (DeleteResourceEntryR st1 rid, none)
      | none => (st, none)

/-- CResourceStore::LoadResource(TWideString) (CResourceStore.cpp lines
    470-540).  `isAbs` models FileUtil::IsAbsolute; `derivedId` the
    hex-decoded or hashed identifier; `relEntryFound` whether the
    project-relative lookup through the directory tree finds an entry. -/
def LoadResourceByPath (env : LoadEnv) (st : RStore) (isAbs : Bool)
    (relEntryFound : Bool) (derivedId : Nat) (dir name : String) :
    RStore × Option Nat :=
  if !isAbs then
    (st, if relEntryFound then env.entryLoadResult else none)
  else if st.loadedResources.contains derivedId then (st, some derivedId)
  else
    match env.typeForExt with
    | none => (st, none)
    | some ty =>
      if !env.fileValid then (st, none)
      else
        let saved := st.transientLoadDir
        let st0 := { st with transientLoadDir := dir }
        let st1 := RegisterTransientResourceWithID st0 ty derivedId dir name
        let r :=
          if env.loadCookedOk then
            ({ st1 with loadedResources := st1.loadedResources ++ [derivedId] },
             some derivedId)
          else
            (DeleteResourceEntryR st1 derivedId, (none : Option Nat))
        ({ r.1 with transientLoadDir := saved }, r.2)

/-- CResourceStore::SaveResourceDatabase (CResourceStore.cpp lines 132-145):
    `writeOk` models CXMLWriter::Save succeeding. -/
def SaveResourceDatabase (st : RStore) (writeOk : Bool) : RStore × Bool :=
  if writeOk then ({ st with databaseDirty := false }, true)
  else (st, false)

/-- CResourceStore::SaveCacheFile (CResourceStore.cpp lines 194-244):
    `fileOpenOk` models CFileOutStream::IsValid; once the file is open the
    function always clears the dirty flag and returns true. -/
def SaveCacheFile (st : RStore) (fileOpenOk : Bool) : RStore × Bool :=
  if fileOpenOk then ({ st with cacheFileDirty := false }, true)
  else (st, false)

/-- CResourceStore::ConditionalSaveStore (CResourceStore.cpp lines 246-250).
    Also returns which of the two save routines were invoked. -/
def ConditionalSaveStore (st : RStore) (dbWriteOk cacheOpenOk : Bool) :
    RStore × Bool × Bool :=
  let r1 := if st.databaseDirty
            then ((SaveResourceDatabase st dbWriteOk).1, true)
            else (st, false)
  let r2 := if r1.1.cacheFileDirty
            then ((SaveCacheFile r1.1 cacheOpenOk).1, true)
            else (r1.1, false)
  (r2.1, r1.2, r2.2)

/-! ### The binary cache file and CResourceStore::LoadCacheFile
     (CResourceStore.cpp lines 147-192)

     The byte source is modelled as a list of bytes plus a cursor, with the
     CFileInStream operations Tell/Seek/ReadLong (big-endian).  -/

structure CStream where
  data : List Nat
  pos : Nat
deriving DecidableEq

/-- Byte access; reads past the end produce 0. -/
def byteAt (d : List Nat) (i : Nat) : Nat := d.getD i 0

/-- CFileInStream::ReadLong: 4 bytes, big-endian. -/
def ReadLong (s : CStream) : Nat × CStream :=
  (byteAt s.data s.pos * 16777216 + byteAt s.data (s.pos + 1) * 65536 +
   byteAt s.data (s.pos + 2) * 256 + byteAt s.data (s.pos + 3),
   ⟨s.data, s.pos + 4⟩)

/-- CAssetID read from the stream.  Modelled from the spec: CAssetID (not in
    src) is a stable 64-bit identifier, read as 8 big-endian bytes. -/
def ReadAssetID (s : CStream) : Nat × CStream :=
  let hi := ReadLong s
  let lo := ReadLong hi.2
  (hi.1 * 4294967296 + lo.1, lo.2)

/-- Big-endian byte encodings used by the cache-file writer convention. -/
def u32be (n : Nat) : List Nat :=
  [n / 16777216 % 256, n / 65536 % 256, n / 256 % 256, n % 256]

def u64be (n : Nat) : List Nat :=
  u32be (n / 4294967296) ++ u32be (n % 4294967296)

/-- Modelled from the spec: the CSerialVersion record of the cache header
    (CSerialVersion is not in src) is an opaque fixed-size record; it is
    modelled as 8 bytes (archive version u16, file version u16, game u32). -/
def versionRecordSize : Nat := 8

/-- The FourCC "CACH" read as a big-endian u32. -/
def cacheMagic : Nat := 0x43414348

/-- One record of the binary cache file: asset id and opaque payload. -/
structure CacheRec where
  id : Nat
  payload : List Nat
deriving DecidableEq

/-- The cache-file writer framing (SaveCacheFile, CResourceStore.cpp lines
    215-237): per record, [id][u32 byteLength][payload]. -/
def encodeCacheRecord (r : CacheRec) : List Nat :=
  u64be r.id ++ u32be r.payload.length ++ r.payload

/-- Full cache file: "CACH" magic, version record, u32 count, records. -/
def encodeCacheFile (ver : List Nat) (recs : List CacheRec) : List Nat :=
  u32be cacheMagic ++ ver ++ u32be recs.length ++
  (recs.map encodeCacheRecord).flatten

/-- Whether LoadCacheFile deserializes the payload of a record: the id must
    resolve to a registered, non-transient entry. -/
def cacheEntryDeserialized (entries : List SEntry) (id : Nat) : Bool :=
  match FindEntryIn entries id with
  | some e => !e.transient
  | none => false

/-- The record loop of CResourceStore::LoadCacheFile (lines 170-190).
    `consume` gives the number of bytes the nested CBasicBinaryReader
    advances the cursor by while deserializing a recognized entry's payload
    (SerializeCacheData is external); the loop then seeks unconditionally to
    the computed end offset.  Returns the (id, declared size, deserialized)
    triples observed, and the final stream. -/
def LoadCacheRecords (entries : List SEntry) (consume : Nat → Nat)
    (s : CStream) : Nat → List (Nat × Nat × Bool) × CStream
  | 0 => ([], s)
  | n + 1 =>
    let idR := ReadAssetID s
    let szR := ReadLong idR.2
    let entryCacheEnd := szR.2.pos + szR.1
    let deser := cacheEntryDeserialized entries idR.1
    let s3 := if deser then { szR.2 with pos := szR.2.pos + consume idR.1 }
              else szR.2
    let s4 : CStream := { s3 with pos := entryCacheEnd }
    let rest := LoadCacheRecords entries consume s4 n
    ((idR.1, szR.1, deser) :: rest.1, rest.2)

/-- CResourceStore::LoadCacheFile (CResourceStore.cpp lines 147-192), given
    an already-open byte source.  Returns the success flag, the observed
    records and the final stream. -/
def LoadCacheFile (entries : List SEntry) (consume : Nat → Nat)
    (data : List Nat) : Bool × List (Nat × Nat × Bool) × CStream :=
  let s0 : CStream := ⟨data, 0⟩
  let magicR := ReadLong s0
  if magicR.1 ≠ cacheMagic then (false, [], magicR.2)
  else
    let s1 : CStream := { magicR.2 with pos := magicR.2.pos + versionRecordSize }
    let countR := ReadLong s1
    let loopR := LoadCacheRecords entries consume countR.2 countR.1
    (true, loopR.1, loopR.2)

/-! ### CResourceStore::DestroyUnreferencedResources
     (CResourceStore.cpp lines 549-588)

     The garbage-collection claims need the reference structure between
     loaded payloads, so a dedicated state is used: each entry records the
     ids its loaded payload holds references to (through TResPtrs), and
     `external` gives the number of references held from outside the store.
     CResource::IsReferenced (external to src) reports a positive reference
     count; CResourceEntry::Unload is modelled from the spec: it succeeds
     exactly when the payload reports no outstanding references. -/

structure GCEntry where
  id : Nat
  transient : Bool
  refsHeld : List Nat
deriving DecidableEq

structure GCState where
  entries : List GCEntry
  loaded : List Nat
  external : Nat → Nat

/-- Lookup in the GC entries list by id. -/
def gcFind (entries : List GCEntry) (id : Nat) : Option GCEntry :=
  entries.find? (fun e => decide (e.id = id))

/-- The ids referenced by the loaded payload of entry `j` (empty when the
    entry is unknown). -/
def gcRefsOf (st : GCState) (j : Nat) : List Nat :=
  match gcFind st.entries j with
  | some e => e.refsHeld
  | none => []

/-- CResource::IsReferenced for the payload of entry `id`: some external
    holder, or some currently loaded payload, references it. -/
def gcIsReferenced (st : GCState) (id : Nat) : Bool :=
  decide (0 < st.external id) ||
  st.loaded.any (fun j => (gcRefsOf st j).contains id)

/-- Whether entry `id` is transient in state `st`. -/
def gcIsTransient (st : GCState) (id : Nat) : Bool :=
  match gcFind st.entries id with
  | some e => e.transient
  | none => false

/-- One deletion step of the scan: erase the id from mLoadedResources, then,
    if the entry is transient, DeleteResourceEntry removes it from
    mResourceEntries entirely (lines 565-570, 590-613). -/
def gcDeleteStep (st : GCState) (id : Nat) : GCState :=
  let entries1 :=
    if gcIsTransient st id
    then st.entries.filter (fun e => decide (e.id ≠ id))
    else st.entries
  { st with loaded := st.loaded.erase id, entries := entries1 }

/-- The inner while loop of DestroyUnreferencedResources over a snapshot of
    the loaded-map iteration order: for each entry whose payload is
    unreferenced, Unload succeeds (spec-modelled, same condition) and the
    deletion step runs; NumDeleted counts the removals. -/
def gcPassAux (st : GCState) (ndel : Nat) :
    List Nat → GCState × Nat
  | [] => (st, ndel)
  | id :: rest =>
    if !gcIsReferenced st id then
      gcPassAux (gcDeleteStep st id) (ndel + 1) rest
    else
      gcPassAux st ndel rest

/-- One full scan of the loaded-map. -/
def gcPass (st : GCState) : GCState × Nat :=
  gcPassAux st 0 st.loaded

/-- The do-while loop, driven by explicit fuel: repeat the full scan while a
    pass removed something. -/
def gcLoop : GCState → Nat → GCState
  | st, 0 => st
  | st, fuel + 1 =>
    let r := gcPass st
    if r.2 = 0 then r.1 else gcLoop r.1 fuel

/-- CResourceStore::DestroyUnreferencedResources (lines 549-575): every pass
    that deletes anything shrinks the loaded-map, so loaded.length + 1
    passes always reach the fixed point.  (The trailing sweep of empty
    transient root directories, lines 577-587, is outside the entries and
    loaded maps and is not modelled.) -/
def DestroyUnreferencedResources (st : GCState) : GCState :=
  gcLoop st (st.loaded.length + 1)

/-! ## Theorems -/

/-! ### Claim C1 -/

/-- Claim C1: with hints including Optional but not AlwaysSave and the live
    value equal to the supplied default, a writer archive without
    AF_NoSkipping skips the field (ShouldSerializeParameter is false, no
    entry is emitted); a reader that does not enter the field's scope resets
    the field to the supplied default; and with AF_NoSkipping set,
    ShouldSerializeParameter is true for every field. -/
theorem claim_C1 {α : Type} [DecidableEq α] (a : ArchiveState)
    (be : PrimBackend α) (p : TSerialParameter α) (d : α) :
    (hasFlag a.mArchiveFlags AF_NoSkipping = false →
     IsWriter a = true →
     hasFlag p.HintFlags SH_Optional = true →
     hasFlag p.HintFlags SH_AlwaysSave = false →
     p.pDefaultValue = some d → p.rValue = d →
     ShouldSerializeParameter a p = false ∧
       (serializePrimitiveValue a be p).2 = false) ∧
    (IsReader a = true → p.pDefaultValue = some d →
     (ShouldSerializeParameter a p && be.paramBeginResult) = false →
     (serializePrimitiveValue a be p).1 = d) ∧
    (hasFlag a.mArchiveFlags AF_NoSkipping = true →
     ShouldSerializeParameter a p = true) := by
  refine ⟨?_, ?_, ?_⟩
  · intro hns hw hopt has hdef hval
    have hmd : ParameterMatchesDefault p = true := by
      simp [ParameterMatchesDefault, hdef, hval]
    have h1 : ShouldSerializeParameter a p = false := by
      simp [ShouldSerializeParameter, hns, hw, hopt, has, hmd]
    refine ⟨h1, ?_⟩
    simp only [serializePrimitiveValue, h1, Bool.false_and, Bool.false_eq_true,
               if_false]
    split <;> rfl
  · intro hr hdef hskip
    simp [serializePrimitiveValue, hskip, hr, InitParameterToDefault, hdef]
  · intro hns
    simp [ShouldSerializeParameter, hns]

/-- Witness for claim C1 at concrete inputs: a writer skipping a defaulted
    Optional field, a reader resetting a skipped field to its default, and
    AF_NoSkipping forcing serialization of a NeverSave defaulted field. -/
theorem claim_C1_witness :
    (ShouldSerializeParameter (ArchiveState.mk 2 2)
        (TSerialParameter.mk "F" (5 : Nat) SH_Optional (some 5)) = false ∧
     (serializePrimitiveValue (ArchiveState.mk 2 2) (PrimBackend.mk true 0)
        (TSerialParameter.mk "F" (5 : Nat) SH_Optional (some 5))).2 = false) ∧
    (serializePrimitiveValue (ArchiveState.mk 2 1) (PrimBackend.mk false 0)
        (TSerialParameter.mk "G" (3 : Nat) SH_Optional (some 9))).1 = 9 ∧
    ShouldSerializeParameter (ArchiveState.mk 2 18)
        (TSerialParameter.mk "H" (5 : Nat) SH_NeverSave (some 5)) = true :=
  ⟨(claim_C1 (ArchiveState.mk 2 2) (PrimBackend.mk true 0)
      (TSerialParameter.mk "F" (5 : Nat) SH_Optional (some 5)) 5).1
      (by decide) (by decide) (by decide) (by decide) rfl rfl,
   (claim_C1 (ArchiveState.mk 2 1) (PrimBackend.mk false 0)
      (TSerialParameter.mk "G" (3 : Nat) SH_Optional (some 9)) 9).2.1
      (by decide) rfl (by decide),
   (claim_C1 (ArchiveState.mk 2 18) (PrimBackend.mk true 0)
      (TSerialParameter.mk "H" (5 : Nat) SH_NeverSave (some 5)) 5).2.2
      (by decide)⟩

/-! ### Claim C5 -/

/-- The loop of FindParentObject searches the reversed n-element prefix. -/
theorem FindParentLoop_eq (stack : List SParmStackEntry) (tid : Nat) :
    ∀ n, n ≤ stack.length →
      FindParentLoop stack tid n =
        ((stack.take n).reverse.find?
            (fun e => decide (e.TypeID = tid))).map
          (fun e => e.pDataPointer) := by
  intro n
  induction n with
  | zero => intro _; simp [FindParentLoop]
  | succ n ih =>
    intro h
    have hn : n < stack.length := Nat.lt_of_succ_le h
    have hget : stack[n]? = some stack[n] := List.getElem?_eq_getElem hn
    rw [FindParentLoop, hget]
    have htake : stack.take (n + 1) = stack.take n ++ [stack[n]] := by
      rw [List.take_succ, hget]
      rfl
    rw [htake, List.reverse_append]
    simp only [List.reverse_singleton, List.singleton_append, List.find?_cons]
    by_cases hc : stack[n].TypeID = tid
    · simp [hc]
    · simp only [if_neg hc, decide_eq_false hc]
      exact ih (Nat.le_of_lt hn)

/-- Claim C5: FindParentObject returns the data pointer of the nearest frame
    below the top of the traversal stack whose type identity matches,
    scanning from the second-to-last frame backward; the top frame is never
    consulted and the result is none when no such frame exists.  This is
    captured exactly by searching the reversed dropLast of the stack. -/
theorem claim_C5 (stack : List SParmStackEntry) (tid : Nat) :
    FindParentObject stack tid =
      (stack.dropLast.reverse.find?
          (fun e => decide (e.TypeID = tid))).map
        (fun e => e.pDataPointer) := by
  rw [FindParentObject,
      FindParentLoop_eq stack tid (stack.length - 1) (Nat.sub_le _ _),
      List.dropLast_eq_take]

/-! ### Claim C9 -/

/-- Claim C9: the database dirty flag is cleared exactly by a successful
    SaveResourceDatabase and the cache dirty flag exactly by a successful
    SaveCacheFile; a failed save leaves the flag unchanged and returns
    false; ConditionalSaveStore invokes exactly the save routines whose
    dirty flag is set. -/
theorem claim_C9 (st : RStore) (dbOk cacheOk : Bool) :
    SaveResourceDatabase st true = ({ st with databaseDirty := false }, true) ∧
    SaveResourceDatabase st false = (st, false) ∧
    SaveCacheFile st true = ({ st with cacheFileDirty := false }, true) ∧
    SaveCacheFile st false = (st, false) ∧
    (ConditionalSaveStore st dbOk cacheOk).2.1 = st.databaseDirty ∧
    (ConditionalSaveStore st dbOk cacheOk).2.2 = st.cacheFileDirty := by
  refine ⟨rfl, rfl, rfl, rfl, ?_, ?_⟩ <;>
    cases hdb : st.databaseDirty <;> cases hc : st.cacheFileDirty <;>
    cases dbOk <;>
    simp [ConditionalSaveStore, SaveResourceDatabase, SaveCacheFile, hdb, hc]

/-! ### Claim C4 -/

/-- Promotion keeps the association-list lookup aligned: updating the entry
    with the matching id commutes with FindEntryIn. -/
theorem FindEntryIn_promote (l : List SEntry) (id : Nat) (dir name : String) :
    FindEntryIn (l.map (fun x => if x.id = id then AddToProject x dir name else x)) id
      = (FindEntryIn l id).map (fun x => AddToProject x dir name) := by
  induction l with
  | nil => rfl
  | cons a t ih =>
    by_cases h : a.id = id
    · simp [FindEntryIn, List.find?_cons, h, AddToProject]
    · simp only [FindEntryIn, List.map_cons, List.find?_cons, if_neg h,
                 decide_eq_false h]
      exact ih

/-- Claim C4: registering an id already tracked by a non-transient entry
    only logs an error and leaves the store unchanged; an id tracked by a
    transient entry is promoted in place via AddToProject under the
    assertion that the type matches (a mismatch is fatal); an unknown id
    creates a new entry exactly when the directory path and name validate
    through IsValidResourcePath. -/
theorem claim_C4 (v : Validators) (st : RStore) (id ty : Nat)
    (dir name : String) (e : SEntry) :
    (FindEntry st id = some e → e.transient = false →
      RegisterResource v st id ty dir name = some (st, true)) ∧
    (FindEntry st id = some e → e.transient = true → e.resType = ty →
      ∃ st', RegisterResource v st id ty dir name = some (st', false) ∧
        st'.resourceEntries.length = st.resourceEntries.length ∧
        FindEntry st' id = some (AddToProject e dir name)) ∧
    (FindEntry st id = some e → e.transient = true → e.resType ≠ ty →
      RegisterResource v st id ty dir name = none) ∧
    (FindEntry st id = none → IsValidResourcePath v dir name = true →
      RegisterResource v st id ty dir name =
        some ({ st with resourceEntries :=
                  st.resourceEntries ++ [⟨id, ty, dir, name, false⟩] }, false)) ∧
    (FindEntry st id = none → IsValidResourcePath v dir name = false →
      RegisterResource v st id ty dir name = some (st, true)) := by
  refine ⟨?_, ?_, ?_, ?_, ?_⟩
  · intro hf ht
    simp [RegisterResource, hf, ht]
  · intro hf ht hty
    have hvalid : assetIDIsValid id = true := by
      cases hval : assetIDIsValid id with
      | false => simp [FindEntry, hval] at hf
      | true => rfl
    refine ⟨{ st with resourceEntries := st.resourceEntries.map (fun x => if x.id = id then AddToProject x dir name else x) }, ?_, ?_, ?_⟩
    · simp [RegisterResource, hf, ht, hty]
    · simp
    · have hfin : FindEntryIn st.resourceEntries id = some e := by
        simpa [FindEntry, hvalid] using hf
      simp [FindEntry, hvalid, FindEntryIn_promote, hfin]
  · intro hf ht hty
    simp [RegisterResource, hf, ht, hty]
  · intro hf hvp
    simp [RegisterResource, hf, hvp]
  · intro hf hvp
    simp [RegisterResource, hf, hvp]

/-- Witness for claim C4: a store tracking a non-transient entry (id 1) and
    a transient entry (id 2); registering id 1 again is an error without
    duplication; id 2 is promoted; id 3 is fresh and validates. -/
theorem claim_C4_witness :
    (FindEntry (RStore.mk [⟨1, 7, "d", "n", false⟩, ⟨2, 8, "t", "m", true⟩]
        [] "" false false) 1 = some ⟨1, 7, "d", "n", false⟩ ∧
     RegisterResource (Validators.mk (fun _ => true) (fun _ => true))
        (RStore.mk [⟨1, 7, "d", "n", false⟩, ⟨2, 8, "t", "m", true⟩]
          [] "" false false) 1 7 "x" "y" =
       some (RStore.mk [⟨1, 7, "d", "n", false⟩, ⟨2, 8, "t", "m", true⟩]
          [] "" false false, true)) ∧
    (∃ st', RegisterResource (Validators.mk (fun _ => true) (fun _ => true))
        (RStore.mk [⟨1, 7, "d", "n", false⟩, ⟨2, 8, "t", "m", true⟩]
          [] "" false false) 2 8 "x" "y" = some (st', false) ∧
        st'.resourceEntries.length = 2 ∧
        FindEntry st' 2 = some (AddToProject ⟨2, 8, "t", "m", true⟩ "x" "y")) :=
  ⟨⟨by decide,
    (claim_C4 (Validators.mk (fun _ => true) (fun _ => true))
      (RStore.mk [⟨1, 7, "d", "n", false⟩, ⟨2, 8, "t", "m", true⟩]
        [] "" false false) 1 7 "x" "y" ⟨1, 7, "d", "n", false⟩).1
      (by decide) rfl⟩,
   (claim_C4 (Validators.mk (fun _ => true) (fun _ => true))
      (RStore.mk [⟨1, 7, "d", "n", false⟩, ⟨2, 8, "t", "m", true⟩]
        [] "" false false) 2 8 "x" "y" ⟨2, 8, "t", "m", true⟩).2.1
      (by decide) rfl rfl⟩

/-! ### Claims C6 and C7 -/

/-- hasTypeTag distributes over append. -/
theorem hasTypeTag_append (l1 l2 : List ArcEvent) :
    hasTypeTag (l1 ++ l2) = (hasTypeTag l1 || hasTypeTag l2) := by
  simp [hasTypeTag]

/-- The optional pointee-body event list never contains a type tag. -/
theorem hasTypeTag_bodyEvs (c : Bool) :
    hasTypeTag (if c then [ArcEvent.pointeeBody] else []) = false := by
  cases c <;> rfl

/-- Claim C6 counterexample: a writer archive at version 0 (older than
    eArVer_Refactor) serializing a non-abstract polymorphic pointer field
    enters the field's scope and writes the pointee body, yet emits no
    "Type" tag — the legacy shim is reader-only. -/
theorem claim_C6_counterexample :
    (serializePrimitivePtr (ArchiveState.mk 0 2) true 0
        (PtrBackend.mk true true 9)
        (TSerialParameter.mk "P" (some 5) 0 none)).isSome = true ∧
    ArcEvent.pointeeBody ∈ tracedEvents (serializePrimitivePtr
        (ArchiveState.mk 0 2) true 0 (PtrBackend.mk true true 9)
        (TSerialParameter.mk "P" (some 5) 0 none)) ∧
    hasTypeTag (tracedEvents (serializePrimitivePtr (ArchiveState.mk 0 2)
        true 0 (PtrBackend.mk true true 9)
        (TSerialParameter.mk "P" (some 5) 0 none))) = false := by
  decide

/-- Claim C6 (amended): under an archive version older than eArVer_Refactor,
    for a non-abstract polymorphic pointer field, only a reader consumes the
    redundant "Type" tag (into a throwaway value) immediately after entering
    the field's scope and before the pointee body; a non-reader archive
    never serializes such a tag.  This holds for all three non-abstract
    pointer overloads. -/
theorem claim_C6 (a : ArchiveState) (poly : Bool) (newId : Nat)
    (be : PtrBackend) (p : TSerialParameter (Option Nat)) :
    (IsReader a = true → IsWriter a = false →
     a.mArchiveVersion < eArVer_Refactor → poly = true →
     (ShouldSerializeParameter a p && be.paramBeginResult) = true →
      (tracedEvents (serializePrimitivePtr a poly newId be p)).take 2 =
        [ArcEvent.paramBegin p.pkName, ArcEvent.typeTag be.typeTagValue] ∧
      (tracedEvents (serializeGlobalPtr a poly newId be p)).take 2 =
        [ArcEvent.paramBegin p.pkName, ArcEvent.typeTag be.typeTagValue] ∧
      (tracedEvents (serializeMemberPtr a poly newId be p)).take 2 =
        [ArcEvent.paramBegin p.pkName, ArcEvent.typeTag be.typeTagValue]) ∧
    (IsReader a = false →
      hasTypeTag (tracedEvents (serializePrimitivePtr a poly newId be p)) = false ∧
      hasTypeTag (tracedEvents (serializeGlobalPtr a poly newId be p)) = false ∧
      hasTypeTag (tracedEvents (serializeMemberPtr a poly newId be p)) = false) := by
  constructor
  · intro hr hw hver hpoly hss
    have hwf : hasFlag a.mArchiveFlags AF_Writer = false := hw
    have hlegacy : legacyTypeTagEvents a poly be =
        [ArcEvent.typeTag be.typeTagValue] := by
      simp [legacyTypeTagEvents, hr, hpoly, decide_eq_true hver]
    refine ⟨?_, ?_, ?_⟩
    · simp only [serializePrimitivePtr, hwf, Bool.false_and, Bool.false_eq_true,
                 if_false, hss, if_true, hlegacy]
      split <;> simp [tracedEvents]
    · simp only [serializeGlobalPtr, hw, Bool.false_and, Bool.false_eq_true,
                 if_false, hss, if_true, hlegacy]
      split <;> simp [tracedEvents]
    · simp only [serializeMemberPtr, hss, if_true, hlegacy]
      split <;> simp [tracedEvents]
  · intro hr
    have hlegacy : legacyTypeTagEvents a poly be = [] := by
      simp [legacyTypeTagEvents, hr]
    refine ⟨?_, ?_, ?_⟩
    · simp only [serializePrimitivePtr, hlegacy]
      split
      · simp [tracedEvents, hasTypeTag]
      · split
        · split <;>
            simp [tracedEvents, hasTypeTag_append, hasTypeTag_bodyEvs, hasTypeTag]
        · simp [tracedEvents, hasTypeTag]
    · simp only [serializeGlobalPtr, hlegacy]
      split
      · simp [tracedEvents, hasTypeTag]
      · split
        · split <;>
            simp [tracedEvents, hasTypeTag_append, hasTypeTag_bodyEvs, hasTypeTag]
        · simp [tracedEvents, hasTypeTag]
    · simp only [serializeMemberPtr, hlegacy]
      split
      · split <;>
          simp [tracedEvents, hasTypeTag_append, hasTypeTag_bodyEvs, hasTypeTag]
      · simp [tracedEvents, hasTypeTag]

/-- Witness for amended claim C6: a reader at version 1 with a polymorphic
    pointee consumes the tag right after the scope opens; a writer at
    version 1 emits none. -/
theorem claim_C6_witness :
    (tracedEvents (serializePrimitivePtr (ArchiveState.mk 1 1) true 3
        (PtrBackend.mk true true 9)
        (TSerialParameter.mk "Q" (none : Option Nat) 0 none))).take 2 =
      [ArcEvent.paramBegin "Q", ArcEvent.typeTag 9] ∧
    hasTypeTag (tracedEvents (serializePrimitivePtr (ArchiveState.mk 1 2)
        true 3 (PtrBackend.mk true true 9)
        (TSerialParameter.mk "Q" (some 4) 0 none))) = false :=
  ⟨((claim_C6 (ArchiveState.mk 1 1) true 3 (PtrBackend.mk true true 9)
      (TSerialParameter.mk "Q" (none : Option Nat) 0 none)).1
      rfl rfl (by decide) rfl (by decide)).1,
   ((claim_C6 (ArchiveState.mk 1 2) true 3 (PtrBackend.mk true true 9)
      (TSerialParameter.mk "Q" (some 4) 0 none)).2 rfl).1⟩

/-- Claim C7 counterexample: the Member pointer overload, on a writer with a
    null pointer, does not fail an assertion — it opens and closes the
    field's scope and skips the pointee body entirely. -/
theorem claim_C7_counterexample :
    serializeMemberPtr (ArchiveState.mk 2 2) false 0 (PtrBackend.mk true true 0)
        (TSerialParameter.mk "P" (none : Option Nat) 0 none) =
      some (none, [ArcEvent.paramBegin "P", ArcEvent.paramEnd]) := by
  decide

/-- Claim C7 (amended): a writer archive treats a null pointer as a fatal
    assertion failure in the Primitive and Global pointer overloads; the
    non-abstract Member pointer overload performs no such check and
    completes normally, leaving the pointer null and never serializing a
    pointee body. -/
theorem claim_C7 (a : ArchiveState) (poly : Bool) (newId : Nat)
    (be : PtrBackend) (p : TSerialParameter (Option Nat)) :
    (IsWriter a = true → p.rValue = none →
      serializePrimitivePtr a poly newId be p = none) ∧
    (IsWriter a = true → p.rValue = none →
      serializeGlobalPtr a poly newId be p = none) ∧
    (IsWriter a = true → IsReader a = false → p.rValue = none →
      ∃ tr, serializeMemberPtr a poly newId be p = some (none, tr) ∧
        ArcEvent.pointeeBody ∉ tr) := by
  refine ⟨?_, ?_, ?_⟩
  · intro hw hv
    have hwf : hasFlag a.mArchiveFlags AF_Writer = true := hw
    simp [serializePrimitivePtr, hwf, hv]
  · intro hw hv
    simp [serializeGlobalPtr, hw, hv]
  · intro hw hr hv
    have hlegacy : legacyTypeTagEvents a poly be = [] := by
      simp [legacyTypeTagEvents, hr]
    cases hss : (ShouldSerializeParameter a p && be.paramBeginResult) with
    | false =>
      exact ⟨[], by simp [serializeMemberPtr, hss, hv], by simp⟩
    | true =>
      cases hps : be.preSerializeResult with
      | false =>
        refine ⟨[ArcEvent.paramBegin p.pkName, ArcEvent.paramEnd], ?_, by simp⟩
        simp [serializeMemberPtr, hss, hps, hlegacy, hr, hv]
      | true =>
        refine ⟨[ArcEvent.paramBegin p.pkName, ArcEvent.paramEnd], ?_, by simp⟩
        simp [serializeMemberPtr, hss, hps, hlegacy, hr, hv]

/-- Witness for amended claim C7 at a concrete writer with a null pointer:
    Primitive and Global assert; Member completes with an empty field. -/
theorem claim_C7_witness :
    serializePrimitivePtr (ArchiveState.mk 2 2) false 0
        (PtrBackend.mk true true 0)
        (TSerialParameter.mk "P" (none : Option Nat) 0 none) = none ∧
    serializeGlobalPtr (ArchiveState.mk 2 2) false 0
        (PtrBackend.mk true true 0)
        (TSerialParameter.mk "P" (none : Option Nat) 0 none) = none ∧
    (∃ tr, serializeMemberPtr (ArchiveState.mk 2 2) false 0
        (PtrBackend.mk true true 0)
        (TSerialParameter.mk "P" (none : Option Nat) 0 none) =
          some (none, tr) ∧ ArcEvent.pointeeBody ∉ tr) :=
  ⟨(claim_C7 (ArchiveState.mk 2 2) false 0 (PtrBackend.mk true true 0)
      (TSerialParameter.mk "P" (none : Option Nat) 0 none)).1 rfl rfl,
   (claim_C7 (ArchiveState.mk 2 2) false 0 (PtrBackend.mk true true 0)
      (TSerialParameter.mk "P" (none : Option Nat) 0 none)).2.1 rfl rfl,
   (claim_C7 (ArchiveState.mk 2 2) false 0 (PtrBackend.mk true true 0)
      (TSerialParameter.mk "P" (none : Option Nat) 0 none)).2.2 rfl rfl rfl⟩

/-! ### Claim C10 -/

/-- Claim C10: when reading an abstract polymorphic pointer field whose
    pointer is already non-null, the engine serializes the "Type"
    discriminant, asserts the value read equals the existing object's
    Type() (a mismatch is fatal), and invokes Serialize on the existing
    object — the factory is never called and the pointer is unchanged, as
    the exact result trace shows; instantiation requires a null pointer. -/
theorem claim_C10 (a : ArchiveState) (factory : Nat → AbsObj)
    (be : AbsBackend) (p : TSerialParameter (Option AbsObj)) (o : AbsObj) :
    IsReader a = true → IsWriter a = false →
    be.paramBeginResult = true → be.preSerializeResult = true →
    p.rValue = some o →
    (be.typeReadValue = o.typeVal →
      serializeAbstractMemberPtr a factory be p =
        some (some o, [ArcEvent.paramBegin p.pkName,
                       ArcEvent.typeTag o.typeVal,
                       ArcEvent.objBody o.objId, ArcEvent.paramEnd])) ∧
    (be.typeReadValue ≠ o.typeVal →
      serializeAbstractMemberPtr a factory be p = none) := by
  intro hr hw hpb hps hv
  have hss : ShouldSerializeParameter a p = true := by
    simp [ShouldSerializeParameter, hw]
  constructor
  · intro ht
    simp [serializeAbstractMemberPtr, hss, hpb, hps, hw, hr, hv, ht]
  · intro ht
    simp [serializeAbstractMemberPtr, hss, hpb, hps, hw, hr, hv, ht]

/-- Witness for claim C10: a reader with an existing pointee of type 5 and
    the file's discriminant also 5 keeps the object and does not call the
    factory; with discriminant 6 the assertion fires. -/
theorem claim_C10_witness :
    serializeAbstractMemberPtr (ArchiveState.mk 2 1) (fun t => AbsObj.mk 99 t)
        (AbsBackend.mk true true 5)
        (TSerialParameter.mk "A" (some (AbsObj.mk 7 5)) 0 none) =
      some (some (AbsObj.mk 7 5),
            [ArcEvent.paramBegin "A", ArcEvent.typeTag 5,
             ArcEvent.objBody 7, ArcEvent.paramEnd]) ∧
    serializeAbstractMemberPtr (ArchiveState.mk 2 1) (fun t => AbsObj.mk 99 t)
        (AbsBackend.mk true true 6)
        (TSerialParameter.mk "A" (some (AbsObj.mk 7 5)) 0 none) = none :=
  ⟨(claim_C10 (ArchiveState.mk 2 1) (fun t => AbsObj.mk 99 t)
      (AbsBackend.mk true true 5)
      (TSerialParameter.mk "A" (some (AbsObj.mk 7 5)) 0 none)
      (AbsObj.mk 7 5) rfl rfl rfl rfl rfl).1 rfl,
   (claim_C10 (ArchiveState.mk 2 1) (fun t => AbsObj.mk 99 t)
      (AbsBackend.mk true true 6)
      (TSerialParameter.mk "A" (some (AbsObj.mk 7 5)) 0 none)
      (AbsObj.mk 7 5) rfl rfl rfl rfl rfl).2 (by decide)⟩

/-! ### Claim C8 -/

/-- A lookup miss means the id-excluding filter keeps every entry. -/
theorem filter_ne_of_findEntryIn_none (l : List SEntry) (rid : Nat)
    (h : FindEntryIn l rid = none) :
    l.filter (fun e => decide (e.id ≠ rid)) = l := by
  apply List.filter_eq_self.mpr
  intro e he
  have := List.find?_eq_none.mp h e he
  simpa using this

/-- Claim C8: when LoadResource synthesizes a transient entry (by id with a
    cooked type hint, or by an absolute filesystem path with a fresh derived
    id) and the cooked load fails, the synthesized entry is deleted again
    and the store is returned exactly as it was, with result none. -/
theorem claim_C8 (env : LoadEnv) (st : RStore) (id : Nat) (relFound : Bool)
    (derivedId : Nat) (dir name : String) (ty : Nat) :
    (assetIDIsValid id = true →
     st.loadedResources.contains id = false →
     FindEntryIn st.resourceEntries id = none →
     env.typeForExt = some ty →
     env.loadCookedOk = false →
     FindEntryIn st.resourceEntries env.randomId = none →
     st.loadedResources.contains env.randomId = false →
     LoadResourceByID env st id = (st, none)) ∧
    (assetIDIsValid derivedId = true →
     st.loadedResources.contains derivedId = false →
     FindEntryIn st.resourceEntries derivedId = none →
     env.typeForExt = some ty →
     env.fileValid = true →
     env.loadCookedOk = false →
     LoadResourceByPath env st true relFound derivedId dir name = (st, none)) := by
  constructor
  · intro hvalid hload hfind htype hcook hfresh hfreshload
    have hne : FindEntry st id = none := by simp [FindEntry, hvalid, hfind]
    have hrid : env.randomId ∉ st.loadedResources := by simpa using hfreshload
    simp only [LoadResourceByID, hvalid, Bool.not_true, Bool.false_eq_true,
               if_false, hload, hne, htype, hcook, RegisterTransientResourceNew,
               DeleteResourceEntryR]
    simp only [List.filter_append, filter_ne_of_findEntryIn_none _ _ hfresh,
               List.filter_cons, List.filter_nil, decide_eq_false
                 (fun h : ¬ (env.randomId = env.randomId) => h rfl)]
    simp [List.erase_of_not_mem hrid]
  · intro hvalid hload hfind htype hfile hcook
    have hdid : derivedId ∉ st.loadedResources := by simpa using hload
    have hne : FindEntry { st with transientLoadDir := dir } derivedId = none := by
      simp [FindEntry, hvalid, hfind]
    simp only [LoadResourceByPath, Bool.not_true, Bool.false_eq_true, if_false,
               hload, htype, hfile, RegisterTransientResourceWithID, hne,
               hcook, DeleteResourceEntryR]
    simp only [List.filter_append, filter_ne_of_findEntryIn_none _ _ hfind,
               List.filter_cons, List.filter_nil, decide_eq_false
                 (fun h : ¬ (derivedId = derivedId) => h rfl)]
    simp [List.erase_of_not_mem hdid]

/-- Witness for claim C8 at a concrete store with one unrelated entry: a
    failing cooked load by id and by absolute path both leave the store
    untouched. -/
theorem claim_C8_witness :
    LoadResourceByID (LoadEnv.mk (some 4) 77 false true none)
        (RStore.mk [⟨1, 7, "d", "n", false⟩] [] "" false false) 9 =
      (RStore.mk [⟨1, 7, "d", "n", false⟩] [] "" false false, none) ∧
    LoadResourceByPath (LoadEnv.mk (some 4) 77 false true none)
        (RStore.mk [⟨1, 7, "d", "n", false⟩] [] "" false false)
        true false 9 "C:/x" "y" =
      (RStore.mk [⟨1, 7, "d", "n", false⟩] [] "" false false, none) :=
  ⟨(claim_C8 (LoadEnv.mk (some 4) 77 false true none)
      (RStore.mk [⟨1, 7, "d", "n", false⟩] [] "" false false) 9 false
      9 "C:/x" "y" 4).1 rfl rfl (by decide) rfl rfl (by decide) rfl,
   (claim_C8 (LoadEnv.mk (some 4) 77 false true none)
      (RStore.mk [⟨1, 7, "d", "n", false⟩] [] "" false false) 9 false
      9 "C:/x" "y" 4).2 rfl rfl (by decide) rfl rfl rfl⟩

/-! ### Claim C2 -/

/-- Byte access beyond an appended prefix. -/
theorem byteAt_append_right (pre l : List Nat) (i : Nat) :
    byteAt (pre ++ l) (pre.length + i) = byteAt l i := by
  unfold byteAt
  rw [List.getD_append_right pre l 0 (pre.length + i) (Nat.le_add_right _ _)]
  simp

/-- Reading a u32 encoded at the cursor decodes it. -/
theorem ReadLong_at (pre rest : List Nat) (n : Nat) (h : n < 4294967296) :
    ReadLong ⟨pre ++ (u32be n ++ rest), pre.length⟩ =
      (n, ⟨pre ++ (u32be n ++ rest), pre.length + 4⟩) := by
  have e0 : byteAt (pre ++ (u32be n ++ rest)) pre.length = n / 16777216 % 256 := by
    have h0 := byteAt_append_right pre (u32be n ++ rest) 0
    rw [Nat.add_zero] at h0
    rw [h0]
    simp [byteAt, u32be]
  have e1 : byteAt (pre ++ (u32be n ++ rest)) (pre.length + 1) = n / 65536 % 256 := by
    rw [byteAt_append_right]
    simp [byteAt, u32be]
  have e2 : byteAt (pre ++ (u32be n ++ rest)) (pre.length + 2) = n / 256 % 256 := by
    rw [byteAt_append_right]
    simp [byteAt, u32be]
  have e3 : byteAt (pre ++ (u32be n ++ rest)) (pre.length + 3) = n % 256 := by
    rw [byteAt_append_right]
    simp [byteAt, u32be]
  simp only [ReadLong, e0, e1, e2, e3, Prod.mk.injEq]
  exact ⟨by omega, trivial⟩

/-- Reading a modelled asset id encoded at the cursor decodes it. -/
theorem ReadAssetID_at (pre rest : List Nat) (n : Nat)
    (h : n < 18446744073709551616) :
    ReadAssetID ⟨pre ++ (u64be n ++ rest), pre.length⟩ =
      (n, ⟨pre ++ (u64be n ++ rest), pre.length + 8⟩) := by
  have hhi : n / 4294967296 < 4294967296 := by omega
  have hlo : n % 4294967296 < 4294967296 := Nat.mod_lt _ (by norm_num)
  have hd1 : pre ++ (u64be n ++ rest) =
      pre ++ (u32be (n / 4294967296) ++ (u32be (n % 4294967296) ++ rest)) := by
    simp [u64be, List.append_assoc]
  have hd2 : pre ++ (u32be (n / 4294967296) ++ (u32be (n % 4294967296) ++ rest)) =
      (pre ++ u32be (n / 4294967296)) ++ (u32be (n % 4294967296) ++ rest) := by
    simp [List.append_assoc]
  have hlen : (pre ++ u32be (n / 4294967296)).length = pre.length + 4 := by
    simp [u32be]
  rw [hd1]
  simp only [ReadAssetID, ReadLong_at pre _ _ hhi]
  rw [hd2, ← hlen, ReadLong_at (pre ++ u32be (n / 4294967296)) _ _ hlo]
  simp only [Prod.mk.injEq, CStream.mk.injEq, hlen]
  exact ⟨by omega, trivial⟩

/-- The record triple LoadCacheFile observes for one encoded record. -/
def cacheObserved (entries : List SEntry) (r : CacheRec) : Nat × Nat × Bool :=
  (r.id, r.payload.length, cacheEntryDeserialized entries r.id)

/-- The data of a conditionally advanced stream is unchanged: the
    unconditional seek target is independent of how far the nested reader
    advanced the cursor. -/
theorem cstream_data_if (c : Prop) [Decidable c] (d : List Nat) (p1 p2 : Nat) :
    (if c then CStream.mk d p1 else CStream.mk d p2).data = d := by
  split <;> rfl

/-- The loop of LoadCacheFile, run over an encoded record list placed after
    an arbitrary prefix, observes exactly the encoded records, ends at the
    end of the data, and does so for every `consume` behaviour of the nested
    payload reader. -/
theorem LoadCacheRecords_encode (entries : List SEntry) (consume : Nat → Nat) :
    ∀ (recs : List CacheRec) (pre : List Nat),
      (∀ r ∈ recs, r.id < 18446744073709551616 ∧ r.payload.length < 4294967296) →
      LoadCacheRecords entries consume
          ⟨pre ++ (recs.map encodeCacheRecord).flatten, pre.length⟩ recs.length =
        (recs.map (cacheObserved entries),
         ⟨pre ++ (recs.map encodeCacheRecord).flatten,
          pre.length + ((recs.map encodeCacheRecord).flatten).length⟩) := by
  intro recs
  induction recs with
  | nil =>
    intro pre _
    simp [LoadCacheRecords]
  | cons r rs ih =>
    intro pre hwf
    have hid : r.id < 18446744073709551616 := (hwf r (by simp)).1
    have hpl : r.payload.length < 4294967296 := (hwf r (by simp)).2
    have hwfrs : ∀ x ∈ rs, x.id < 18446744073709551616 ∧
        x.payload.length < 4294967296 := fun x hx => hwf x (by simp [hx])
    have hd1 : ((r :: rs).map encodeCacheRecord).flatten =
        u64be r.id ++ (u32be r.payload.length ++
          (r.payload ++ (rs.map encodeCacheRecord).flatten)) := by
      simp [encodeCacheRecord, List.append_assoc]
    have hlen8 : (pre ++ u64be r.id).length = pre.length + 8 := by
      simp [u64be, u32be]
    have hlenP : ((((pre ++ u64be r.id) ++ u32be r.payload.length) ++ r.payload)).length =
        (pre ++ u64be r.id).length + 4 + r.payload.length := by
      simp [u32be]
      omega
    rw [hd1, show (r :: rs).length = rs.length + 1 from rfl]
    simp only [LoadCacheRecords]
    rw [ReadAssetID_at pre _ _ hid]
    have hd2 : pre ++ (u64be r.id ++ (u32be r.payload.length ++
        (r.payload ++ (rs.map encodeCacheRecord).flatten))) =
        (pre ++ u64be r.id) ++ (u32be r.payload.length ++
        (r.payload ++ (rs.map encodeCacheRecord).flatten)) := by
      simp [List.append_assoc]
    rw [hd2, ← hlen8, ReadLong_at (pre ++ u64be r.id) _ _ hpl]
    have hd3 : (pre ++ u64be r.id) ++ (u32be r.payload.length ++
        (r.payload ++ (rs.map encodeCacheRecord).flatten)) =
        (((pre ++ u64be r.id) ++ u32be r.payload.length) ++ r.payload) ++
        (rs.map encodeCacheRecord).flatten := by
      simp [List.append_assoc]
    rw [hd3, ← hlenP]
    simp only [cstream_data_if]
    rw [ih _ hwfrs]
    simp only [List.map_cons, cacheObserved, Prod.mk.injEq, CStream.mk.injEq]
    refine ⟨trivial, trivial, ?_⟩
    simp [u64be, u32be]
    omega

/-- Claim C2: loading an encoded cache file parses every record header,
    deserializes exactly the records whose id maps to a registered
    non-transient entry, unconditionally seeks each record's computed end
    offset (for every behaviour of the nested payload reader), finishes at
    the end of the data, and returns true — records for unknown or
    transient ids are skipped without disturbing subsequent records. -/
theorem claim_C2 (entries : List SEntry) (consume : Nat → Nat)
    (ver : List Nat) (recs : List CacheRec)
    (hver : ver.length = versionRecordSize)
    (hcount : recs.length < 4294967296)
    (hwf : ∀ r ∈ recs, r.id < 18446744073709551616 ∧
        r.payload.length < 4294967296) :
    LoadCacheFile entries consume (encodeCacheFile ver recs) =
      (true, recs.map (cacheObserved entries),
       ⟨encodeCacheFile ver recs, (encodeCacheFile ver recs).length⟩) := by
  have hmagic : cacheMagic < 4294967296 := by norm_num [cacheMagic]
  have hml : ReadLong ⟨encodeCacheFile ver recs, 0⟩ =
      (cacheMagic, ⟨encodeCacheFile ver recs, 4⟩) := by
    have h := ReadLong_at ([] : List Nat)
      (ver ++ (u32be recs.length ++ (recs.map encodeCacheRecord).flatten))
      cacheMagic hmagic
    simpa [encodeCacheFile, List.append_assoc] using h
  have hpre2 : ((u32be cacheMagic ++ ver)).length = 4 + versionRecordSize := by
    simp [u32be, hver]
    omega
  have hcnt : ReadLong ⟨encodeCacheFile ver recs, 4 + versionRecordSize⟩ =
      (recs.length, ⟨encodeCacheFile ver recs, 4 + versionRecordSize + 4⟩) := by
    have h := ReadLong_at (u32be cacheMagic ++ ver)
      ((recs.map encodeCacheRecord).flatten) recs.length hcount
    rw [hpre2] at h
    have hdata : encodeCacheFile ver recs = (u32be cacheMagic ++ ver) ++
        (u32be recs.length ++ (recs.map encodeCacheRecord).flatten) := by
      simp [encodeCacheFile, List.append_assoc]
    rw [hdata]
    exact h
  have hloop : LoadCacheRecords entries consume
      ⟨encodeCacheFile ver recs, 4 + versionRecordSize + 4⟩ recs.length =
      (recs.map (cacheObserved entries),
       ⟨encodeCacheFile ver recs, (encodeCacheFile ver recs).length⟩) := by
    have h := LoadCacheRecords_encode entries consume recs
      ((u32be cacheMagic ++ ver) ++ u32be recs.length) hwf
    have hp : ((((u32be cacheMagic ++ ver) ++ u32be recs.length))).length =
        4 + versionRecordSize + 4 := by
      simp [u32be, hver]
      omega
    rw [hp] at h
    have hdata : encodeCacheFile ver recs =
        ((u32be cacheMagic ++ ver) ++ u32be recs.length) ++
          (recs.map encodeCacheRecord).flatten := rfl
    rw [hdata, h]
    simp only [Prod.mk.injEq, CStream.mk.injEq]
    refine ⟨trivial, trivial, ?_⟩
    simp [u32be, hver]
    omega
  simp only [LoadCacheFile, hml, ne_eq, not_true_eq_false, if_false, hcnt, hloop]

/-- Witness for claim C2: a store knowing only non-transient entry id 5; the
    encoded cache holds a record for the unknown id 9 followed by one for
    id 5 — loading succeeds, skips the unknown record, deserializes the
    known one, and ends at the end of the file. -/
theorem claim_C2_witness :
    ([0, 0, 0, 0, 0, 0, 0, 0] : List Nat).length = versionRecordSize ∧
    LoadCacheFile [⟨5, 7, "d", "n", false⟩] (fun _ => 2)
        (encodeCacheFile [0, 0, 0, 0, 0, 0, 0, 0]
          [⟨9, [1, 2]⟩, ⟨5, [3]⟩]) =
      (true, [(9, 2, false), (5, 1, true)],
       ⟨encodeCacheFile [0, 0, 0, 0, 0, 0, 0, 0] [⟨9, [1, 2]⟩, ⟨5, [3]⟩],
        (encodeCacheFile [0, 0, 0, 0, 0, 0, 0, 0]
          [⟨9, [1, 2]⟩, ⟨5, [3]⟩]).length⟩) :=
  ⟨rfl,
   by
    have h := claim_C2 [⟨5, 7, "d", "n", false⟩] (fun _ => 2)
      [0, 0, 0, 0, 0, 0, 0, 0] [⟨9, [1, 2]⟩, ⟨5, [3]⟩]
      rfl (by decide) (by decide)
    exact h⟩

/-! ### Claim C3 -/

/-- The deletion counter never decreases along a scan. -/
theorem gcPassAux_ndel_le (pending : List Nat) :
    ∀ st n, n ≤ (gcPassAux st n pending).2 := by
  induction pending with
  | nil => intro st n; exact le_refl n
  | cons id rest ih =>
    intro st n
    simp only [gcPassAux]
    split
    · exact le_trans (Nat.le_succ n) (ih (gcDeleteStep st id) (n + 1))
    · exact ih st n

/-- A scan that deletes nothing leaves the state unchanged. -/
theorem gcPassAux_zero (pending : List Nat) :
    ∀ st n, (gcPassAux st n pending).2 = n → (gcPassAux st n pending).1 = st := by
  induction pending with
  | nil => intro st n _; rfl
  | cons id rest ih =>
    intro st n h
    simp only [gcPassAux] at h ⊢
    split at h
    · exfalso
      have hle := gcPassAux_ndel_le rest (gcDeleteStep st id) (n + 1)
      rw [h] at hle
      omega
    · rename_i hc
      rw [if_neg hc]
      exact ih st n h

/-- Along a scan over a sublist of a duplicate-free loaded-map, the length
    of the loaded-map drops by exactly the number of deletions, and it
    stays duplicate-free. -/
theorem gcPassAux_len (pending : List Nat) :
    ∀ st n, pending.Sublist st.loaded → st.loaded.Nodup →
      ((gcPassAux st n pending).1.loaded.length + (gcPassAux st n pending).2 =
        st.loaded.length + n) ∧
      (gcPassAux st n pending).1.loaded.Nodup := by
  induction pending with
  | nil => intro st n _ hnd; exact ⟨by simp [gcPassAux], by simpa [gcPassAux] using hnd⟩
  | cons id rest ih =>
    intro st n hsub hnd
    have hidmem : id ∈ st.loaded := hsub.subset (by simp)
    have hcons_nd : (id :: rest).Nodup := hsub.nodup hnd
    have hid_notin : id ∉ rest := (List.nodup_cons.mp hcons_nd).1
    simp only [gcPassAux]
    split
    · have hloaded' : (gcDeleteStep st id).loaded = st.loaded.erase id := rfl
      have hnd' : (st.loaded.erase id).Nodup := hnd.erase id
      have hsub' : rest.Sublist (st.loaded.erase id) := by
        rw [hnd.erase_eq_filter]
        have hself : rest.filter (fun x => x != id) = rest :=
          List.filter_eq_self.mpr (fun x hx => by
            simp only [bne_iff_ne, ne_eq]
            exact fun hxe => hid_notin (hxe ▸ hx))
        rw [← hself]
        exact (List.sublist_of_cons_sublist hsub).filter _
      have hlen_erase : (st.loaded.erase id).length = st.loaded.length - 1 :=
        List.length_erase_of_mem hidmem
      obtain ⟨h1, h2⟩ := ih (gcDeleteStep st id) (n + 1)
        (by rw [hloaded']; exact hsub') (by rw [hloaded']; exact hnd')
      refine ⟨?_, h2⟩
      rw [hloaded', hlen_erase] at h1
      have hpos : 0 < st.loaded.length := List.length_pos.mpr
        (fun he => by simp [he] at hidmem)
      omega
    · exact ih st n (List.sublist_of_cons_sublist hsub) hnd

/-- Enough fuel reaches the fixed point of the do-while loop: one further
    pass deletes nothing. -/
theorem gcLoop_fix (fuel : Nat) :
    ∀ st, st.loaded.Nodup → st.loaded.length < fuel →
      (gcPass (gcLoop st fuel)).2 = 0 := by
  induction fuel with
  | zero => intro st _ h; exact absurd h (Nat.not_lt_zero _)
  | succ f ih =>
    intro st hnd hlen
    simp only [gcLoop]
    by_cases hz : (gcPass st).2 = 0
    · rw [if_pos hz]
      have hst : (gcPass st).1 = st := gcPassAux_zero st.loaded st 0 hz
      rw [hst]
      exact hz
    · rw [if_neg hz]
      obtain ⟨h1, h2⟩ := gcPassAux_len st.loaded st 0 (List.Sublist.refl _) hnd
      have h1' : (gcPass st).1.loaded.length + (gcPass st).2 =
          st.loaded.length + 0 := h1
      have h2' : (gcPass st).1.loaded.Nodup := h2
      exact ih (gcPass st).1 h2' (by omega)

/-- Looking up the id excluded by a filter fails. -/
theorem gcFind_filter_self (l : List GCEntry) (x : Nat) :
    gcFind (l.filter (fun e => decide (e.id ≠ x))) x = none := by
  apply List.find?_eq_none.mpr
  intro e he
  have h2 := (List.mem_filter.mp he).2
  simp only [ne_eq, decide_eq_true_eq] at h2
  simp [h2]

/-- A filter on a different id does not affect a lookup. -/
theorem gcFind_filter_ne (l : List GCEntry) (x y : Nat) (hxy : y ≠ x) :
    gcFind (l.filter (fun e => decide (e.id ≠ x))) y = gcFind l y := by
  simp only [gcFind]
  induction l with
  | nil => rfl
  | cons a t ih =>
    rw [List.filter_cons]
    by_cases ha : a.id = x
    · have hq : (decide (a.id ≠ x)) = false := by simp [ha]
      have hp : (decide (a.id = y)) = false := by
        simp only [decide_eq_false_iff_not]
        intro hh
        exact hxy (hh ▸ ha)
      rw [hq]
      simp only [Bool.false_eq_true, if_false, List.find?_cons, hp]
      exact ih
    · have hq : (decide (a.id ≠ x)) = true := by simp [ha]
      rw [hq, if_pos rfl]
      rw [List.find?_cons, List.find?_cons]
      cases hp : (decide (a.id = y)) with
      | false => simpa [hp] using ih
      | true => simp [hp]

/-- A failed lookup stays failed after any id-excluding filter. -/
theorem gcFind_filter_none (l : List GCEntry) (x y : Nat)
    (h : gcFind l y = none) :
    gcFind (l.filter (fun e => decide (e.id ≠ x))) y = none := by
  by_cases hxy : y = x
  · rw [hxy]; exact gcFind_filter_self l x
  · rw [gcFind_filter_ne l x y hxy]; exact h

/-- The invariant carried through the garbage-collection scan, relative to
    the starting state st0: the loaded-map only shrinks, entry lookups are
    either original or removed, and every transient entry that left the
    loaded-map has been removed from the entries map. -/
def gcInv (st0 st : GCState) : Prop :=
  (∀ id, id ∈ st.loaded → id ∈ st0.loaded) ∧
  (∀ id, gcFind st.entries id = gcFind st0.entries id ∨
     gcFind st.entries id = none) ∧
  (∀ id, id ∈ st0.loaded → id ∉ st.loaded → gcIsTransient st0 id = true →
     gcFind st.entries id = none)

theorem gcInv_refl (st : GCState) : gcInv st st :=
  ⟨fun _ h => h, fun _ => Or.inl rfl, fun _ h1 h2 _ => absurd h1 h2⟩

theorem gcInv_deleteStep (st0 st : GCState) (id : Nat) (hInv : gcInv st0 st) :
    gcInv st0 (gcDeleteStep st id) := by
  obtain ⟨i1, i2, i3⟩ := hInv
  refine ⟨?_, ?_, ?_⟩
  · intro x hx
    exact i1 x (List.mem_of_mem_erase hx)
  · intro x
    by_cases ht : gcIsTransient st id = true
    · have he : (gcDeleteStep st id).entries =
          st.entries.filter (fun e => decide (e.id ≠ id)) := by
        simp [gcDeleteStep, ht]
      rw [he]
      by_cases hx : x = id
      · right
        rw [hx]
        exact gcFind_filter_self _ _
      · rw [gcFind_filter_ne _ _ _ hx]
        exact i2 x
    · have he : (gcDeleteStep st id).entries = st.entries := by
        simp [gcDeleteStep, ht]
      rw [he]
      exact i2 x
  · intro x hx0 hxe ht0
    by_cases hxid : x = id
    · subst hxid
      by_cases htc : gcIsTransient st x = true
      · have he : (gcDeleteStep st x).entries =
            st.entries.filter (fun e => decide (e.id ≠ x)) := by
          simp [gcDeleteStep, htc]
        rw [he]
        exact gcFind_filter_self _ _
      · rcases i2 x with h | h
        · exfalso
          apply htc
          simpa [gcIsTransient, h] using ht0
        · have he : (gcDeleteStep st x).entries = st.entries := by
            simp [gcDeleteStep, htc]
          rw [he]
          exact h
    · by_cases hxl : x ∈ st.loaded
      · exfalso
        apply hxe
        exact (List.mem_erase_of_ne hxid).mpr hxl
      · have hnone := i3 x hx0 hxl ht0
        by_cases htc : gcIsTransient st id = true
        · have he : (gcDeleteStep st id).entries =
              st.entries.filter (fun e => decide (e.id ≠ id)) := by
            simp [gcDeleteStep, htc]
          rw [he]
          exact gcFind_filter_none _ _ _ hnone
        · have he : (gcDeleteStep st id).entries = st.entries := by
            simp [gcDeleteStep, htc]
          rw [he]
          exact hnone

theorem gcInv_passAux (pending : List Nat) :
    ∀ st0 st n, gcInv st0 st → gcInv st0 (gcPassAux st n pending).1 := by
  induction pending with
  | nil => intro st0 st n h; exact h
  | cons id rest ih =>
    intro st0 st n h
    simp only [gcPassAux]
    split
    · exact ih st0 _ _ (gcInv_deleteStep st0 st id h)
    · exact ih st0 st n h

theorem gcInv_loop (fuel : Nat) :
    ∀ st0 st, gcInv st0 st → gcInv st0 (gcLoop st fuel) := by
  induction fuel with
  | zero => intro st0 st h; exact h
  | succ f ih =>
    intro st0 st h
    simp only [gcLoop]
    split
    · exact gcInv_passAux st.loaded st0 st 0 h
    · exact ih st0 (gcPass st).1 (gcInv_passAux st.loaded st0 st 0 h)

/-- Claim C3: DestroyUnreferencedResources repeats the full scan until a
    pass removes nothing (the result is a fixed point: one further pass
    deletes zero entries); every transient entry unloaded during the scan
    is deleted from the entries map entirely; and in the concrete chain
    where B (id 2) holds the only reference to A (id 1) and B itself is
    unreferenced, a single call unloads both A and B even though A is
    scanned first. -/
theorem claim_C3 (st : GCState) (h : st.loaded.Nodup) :
    (gcPass (DestroyUnreferencedResources st)).2 = 0 ∧
    (∀ id, id ∈ st.loaded → id ∉ (DestroyUnreferencedResources st).loaded →
       gcIsTransient st id = true →
       gcFind (DestroyUnreferencedResources st).entries id = none) ∧
    (DestroyUnreferencedResources (GCState.mk
        [⟨1, false, []⟩, ⟨2, false, [1]⟩] [1, 2] (fun _ => 0))).loaded = [] := by
  refine ⟨?_, ?_, ?_⟩
  · exact gcLoop_fix (st.loaded.length + 1) st h (Nat.lt_succ_self _)
  · exact (gcInv_loop (st.loaded.length + 1) st st (gcInv_refl st)).2.2
  · rfl

/-- Witness for claim C3 at the concrete two-entry chain state. -/
theorem claim_C3_witness :
    ([1, 2] : List Nat).Nodup ∧
    (gcPass (DestroyUnreferencedResources (GCState.mk
        [⟨1, false, []⟩, ⟨2, false, [1]⟩] [1, 2] (fun _ => 0)))).2 = 0 :=
  ⟨by decide,
   (claim_C3 (GCState.mk [⟨1, false, []⟩, ⟨2, false, [1]⟩] [1, 2]
      (fun _ => 0)) (by decide)).1⟩

end PWE
